import Mathlib

/-!
Verification of the startup readiness orchestration of the KitSvc service
bootstrap (`server.go`, `router/router.go`).

The development shallowly embeds:

* `pingServer` (server.go lines 231-244): the bounded-retry liveness probe.
  The network is abstracted as a function `get : Nat → GetResult` giving the
  outcome of the i-th HTTP GET; the loop, the success test
  (`err == nil && resp.StatusCode == 200`), the per-failure sleep and the
  final error are translated literally, counting attempts and sleeps.
* `serverFlags` (server.go lines 19-175): the configuration flag table,
  kept as (env var, name, default value) triples.
* `Router.Load` (router/router.go lines 17-59): the route table built on
  the gin engine, with gin group prefixes concatenated as gin does.
* `server` (server.go lines 177-228) together with `main`
  (lines 254-267): the orchestration of the `deployed`, `replayed` and
  `started` channels, the registration goroutine and the probe goroutine,
  as a small transition system `Step` over `SysState` with an explicit
  reachability predicate.  Channel closes are counted so that the
  at-most-once (no double-close panic) property is a provable invariant.
-/

/-- Outcome of one `http.Get` in `pingServer`: either a transport error
(`err != nil`) or a response carrying a status code (`err == nil`). -/
inductive GetResult where
  | transportError : GetResult
  | response (statusCode : Nat) : GetResult
deriving DecidableEq, Repr

/-- The success test of one probe attempt, from server.go line 235:
`err == nil && resp.StatusCode == 200`. -/
def pingOk : GetResult → Bool
  | .transportError => false
  | .response statusCode => statusCode == 200

/-- Result of `pingServer`, instrumented with the number of GET attempts
issued and the number of `time.Sleep(time.Second)` calls executed.
`ok` is the `return nil` path, `exhausted` the
`errors.New("Cannot connect to the router.")` path. -/
inductive PingOutcome where
  | ok (attempts sleeps : Nat) : PingOutcome
  | exhausted (attempts sleeps : Nat) : PingOutcome
deriving DecidableEq, Repr

/-- Number of GET attempts recorded in a `PingOutcome`. -/
def PingOutcome.attemptCount : PingOutcome → Nat
  | .ok a _ => a
  | .exhausted a _ => a

/-- Number of sleeps recorded in a `PingOutcome`. -/
def PingOutcome.sleepCount : PingOutcome → Nat
  | .ok _ s => s
  | .exhausted _ s => s

/-- Whether a `PingOutcome` is the success (`return nil`) path. -/
def PingOutcome.isOk : PingOutcome → Bool
  | .ok _ _ => true
  | .exhausted _ _ => false

/-- The loop body of `pingServer` (server.go lines 232-242): `i` is the
current loop index, `remaining` the number of iterations left
(`max-ping-count - i`).  Each iteration issues one GET; on
`err == nil && status == 200` it returns immediately; otherwise it logs,
sleeps one second, and continues.  When the budget runs out the loop
falls through to the error return (line 243). -/
def pingLoop (get : Nat → GetResult) (i : Nat) : Nat → PingOutcome
  | 0 => .exhausted 0 0
  | remaining + 1 =>
    if pingOk (get i) then
      .ok 1 0
    else
      match pingLoop get (i + 1) remaining with
      | .ok a s => .ok (a + 1) (s + 1)
      | .exhausted a s => .exhausted (a + 1) (s + 1)

/-- The probe `pingServer` (server.go lines 231-244): runs the loop
`for i := 0; i < c.Int("max-ping-count"); i++`.  The budget is a Go `int`,
so it is an `Int` here; a non-positive budget gives zero iterations. -/
def pingServer (get : Nat → GetResult) (maxPingCount : Int) : PingOutcome :=
  pingLoop get 0 maxPingCount.toNat

/-- The error message returned on budget exhaustion (server.go line 243). -/
def pingExhaustedMsg : String := "Cannot connect to the router."

/-- The fixed retry interval of the probe, in seconds: `time.Sleep(time.Second)`
at server.go line 241. -/
def pingRetryIntervalSeconds : Nat := 1

/-- The health path appended to the configured service URL by the probe
(server.go line 234): `c.String("url") + "/sd/health"`. -/
def pingURL (url : String) : String := url ++ "/sd/health"

/-- Whether `pingServer` succeeds for a given network behaviour and budget;
this is the condition the probe goroutine branches on (server.go line 218). -/
def pingSucceeds (get : Nat → GetResult) (maxPingCount : Int) : Bool :=
  (pingServer get maxPingCount).isOk

/-! ## Configuration flags (server.go lines 19-175) -/

/-- A `cli.Flag` default value: Go's `codegangsta/cli` flags carry a
`Value` of string, int or string-slice type; `unset` stands for a flag
declared without an explicit `Value` (zero default). -/
inductive FlagValue where
  | str (s : String) : FlagValue
  | int (n : Int) : FlagValue
  | strSlice (l : List String) : FlagValue
  | unset : FlagValue
deriving DecidableEq, Repr

/-- One entry of `serverFlags`: environment variable, flag name and
default value (named `CliFlag` because Mathlib already has a `Flag`). -/
structure CliFlag where
  envVar : String
  name : String
  value : FlagValue
deriving DecidableEq, Repr

/-- The table `serverFlags` (server.go lines 19-175), the configuration read
once at startup; the usage strings are omitted as they carry no
behaviour. -/
def serverFlags : List CliFlag :=
  [ ⟨"KITSVC_NAME", "name", .unset⟩,
    ⟨"KITSVC_URL", "url", .str "http://127.0.0.1:8080"⟩,
    ⟨"KITSVC_ADDR", "addr", .str "127.0.0.1:8080"⟩,
    ⟨"KITSVC_PORT", "port", .int 8080⟩,
    ⟨"KITSVC_USAGE", "usage", .unset⟩,
    ⟨"KITSVC_JWT_SECRET", "jwt-secret", .unset⟩,
    ⟨"KITSVC_MAX_PING_COUNT", "max-ping-count", .int 20⟩,
    ⟨"KITSVC_DATABASE_NAME", "database-name", .str "service"⟩,
    ⟨"KITSVC_DATABASE_HOST", "database-host", .str "127.0.0.1:3306"⟩,
    ⟨"KITSVC_DATABASE_USER", "database-user", .unset⟩,
    ⟨"KITSVC_DATABASE_PASSWORD", "database-password", .unset⟩,
    ⟨"KITSVC_DATABASE_CHARSET", "database-charset", .str "utf8"⟩,
    ⟨"KITSVC_DATABASE_LOC", "database-loc", .str "Local"⟩,
    ⟨"KITSVC_DATABASE_PARSE_TIME", "database-parse_time", .unset⟩,
    ⟨"KITSVC_NSQ_PRODUCER", "nsq-producer", .str "127.0.0.1:4150"⟩,
    ⟨"KITSVC_NSQ_PRODUCER_HTTP", "nsq-producer-http", .str "127.0.0.1:4151"⟩,
    ⟨"KITSVC_NSQ_LOOKUPDS", "nsq-lookupds", .strSlice ["127.0.0.1:4161"]⟩,
    ⟨"KITSVC_ES_SERVER_URL", "es-url", .str "http://127.0.0.1:2113"⟩,
    ⟨"KITSVC_ES_USERNAME", "es-username", .unset⟩,
    ⟨"KITSVC_ES_PASSWORD", "es-password", .unset⟩,
    ⟨"KITSVC_PROMETHEUS_NAMESPACE", "prometheus-namespace", .unset⟩,
    ⟨"KITSVC_PROMETHEUS_SUBSYSTEM", "prometheus-subsystem", .unset⟩,
    ⟨"KITSVC_CONSUL_CHECK_INTERVAL", "consul-check_interval", .str "10s"⟩,
    ⟨"KITSVC_CONSUL_CHECK_TIMEOUT", "consul-check_timeout", .str "1s"⟩,
    ⟨"KITSVC_CONSUL_TAGS", "consul-tags", .strSlice ["micro"]⟩ ]

/-- The default integer value of a named flag, as `c.Int(name)` yields it
when the flag was not supplied on the command line or environment. -/
def flagIntValue (flagName : String) : Option Int :=
  match serverFlags.find? (fun f => f.name == flagName) with
  | some f =>
    match f.value with
    | .int n => some n
    | _ => none
  | none => none

/-! ## The route table (router/router.go lines 17-59) -/

/-- One gin route: HTTP method, full path (group prefixes concatenated as
gin concatenates them) and the name of the installed handler. -/
structure Route where
  method : String
  path : String
  handler : String
deriving DecidableEq, Repr

namespace Router

/-- The function `router.Load` (router/router.go lines 17-59): the routes it registers
on the gin engine it is given.  `user` and `svcd` are the gin route
groups of lines 27 and 38; gin prepends the group path to each route
registered through the group. -/
def Load : List Route :=
  let user := "/user"
  let svcd := "/sd"
  [ ⟨"POST", user ++ "", "service.CreateUser"⟩,
    ⟨"GET", user ++ "/:username", "service.GetUser"⟩,
    ⟨"DELETE", user ++ "/:id", "service.DeleteUser"⟩,
    ⟨"PUT", user ++ "/:id", "service.UpdateUser"⟩,
    ⟨"POST", user ++ "/token", "service.PostToken"⟩,
    ⟨"GET", svcd ++ "/health", "sd.HealthCheck"⟩,
    ⟨"GET", svcd ++ "/disk", "sd.DiskCheck"⟩,
    ⟨"GET", svcd ++ "/cpu", "sd.CPUCheck"⟩,
    ⟨"GET", svcd ++ "/ram", "sd.RAMCheck"⟩,
    ⟨"GET", "/metrics", "metrics.PrometheusHandler"⟩ ]

end Router

/-- The routes served by the request acceptor: `server` (server.go lines
185, 194, 227) creates one gin engine, passes that same engine to
`router.Load`, and hands that same engine to `http.ListenAndServe`, so
the served engine carries exactly the routes `Load` registers. -/
def servedRoutes : List Route := Router.Load

/-! ## The bootstrap orchestration (server.go lines 177-228, main lines 254-267) -/

/-- Program counter of the probe goroutine (server.go lines 217-224):
run `pingServer`; on error call `logrus.Fatalln` (terminating the
process); on success log and `close(deployed)`. -/
inductive ProbePC where
  | running : ProbePC
  | succeeded : ProbePC
  | done : ProbePC
  | failed : ProbePC
deriving DecidableEq, Repr

/-- Program counter of the event-replay collaborator (the goroutine behind
`middleware.Event(c, event, replayed, deployed)`, server.go line 201,
whose body is outside this tree): wait, then `close(replayed)`. -/
inductive ReplayPC where
  | waiting : ReplayPC
  | closing : ReplayPC
  | done : ReplayPC
deriving DecidableEq, Repr

/-- Program counter of the registration goroutine (server.go lines
207-214): `<-replayed`; `sd.Register(c)`; `close(started)`. -/
inductive RegPC where
  | waiting : RegPC
  | registering : RegPC
  | closingStarted : RegPC
  | done : RegPC
deriving DecidableEq, Repr

/-- State of one run of `server`: the three goroutine program counters,
a close counter per channel (`deployed`, `replayed` from server.go lines
181-182, `started` = `serverReady` from main, line 255), the number of
`sd.Register` calls, the outcome the last registration call had, and
whether `logrus.Fatalln` has terminated the process. -/
structure SysState where
  probePC : ProbePC
  replayPC : ReplayPC
  regPC : RegPC
  deployedCount : Nat
  replayedCount : Nat
  startedCount : Nat
  regCount : Nat
  regOutcome : Option Bool
  fatal : Bool
deriving DecidableEq, Repr

/-- The initial state: channels freshly made (no closes), all goroutines
at their first statement, no registration performed. -/
def initState : SysState :=
  ⟨.running, .waiting, .waiting, 0, 0, 0, 0, none, false⟩

/-- Modelled from the spec: the interleaving semantics of `server`.  The
bodies of `middleware.Event` / the event-replay collaborator and of
`sd.Register` belong to this repository but are not under `src/`; per the
spec, the replay collaborator emits its single "replay finished"
notification (`close(replayed)`) and the process must not announce itself
until both the replay and the routes-deployed preconditions hold, while
the registration goroutine visible in `src` waits on `replayed` alone —
so the missing collaborator is modelled as completing replay only after
`deployed` is closed (it is the sole consumer `server` hands the
`deployed` channel to, server.go lines 201-202), and `sd.Register` is
modelled as a call with an arbitrary outcome `b` that the caller discards
(fire-and-forget, server.go line 210).  Every rule requires the process
not to have been terminated by `logrus.Fatalln` (`fatal = false`); the
probe's branch on `pingServer`'s result is taken according to
`pingSucceeds get n`. -/
inductive Step (get : Nat → GetResult) (n : Int) : SysState → SysState → Prop where
  | probe_ok (s : SysState) :
      s.fatal = false → s.probePC = .running → pingSucceeds get n = true →
      Step get n s { s with probePC := .succeeded }
  | probe_fail (s : SysState) :
      s.fatal = false → s.probePC = .running → pingSucceeds get n = false →
      Step get n s { s with probePC := .failed, fatal := true }
  | probe_close_deployed (s : SysState) :
      s.fatal = false → s.probePC = .succeeded →
      Step get n s { s with probePC := .done, deployedCount := s.deployedCount + 1 }
  | replay_wait_deployed (s : SysState) :
      s.fatal = false → s.replayPC = .waiting → s.deployedCount ≠ 0 →
      Step get n s { s with replayPC := .closing }
  | replay_close_replayed (s : SysState) :
      s.fatal = false → s.replayPC = .closing →
      Step get n s { s with replayPC := .done, replayedCount := s.replayedCount + 1 }
  | reg_wait_replayed (s : SysState) :
      s.fatal = false → s.regPC = .waiting → s.replayedCount ≠ 0 →
      Step get n s { s with regPC := .registering }
  | reg_call (s : SysState) (b : Bool) :
      s.fatal = false → s.regPC = .registering →
      Step get n s { s with regPC := .closingStarted, regCount := s.regCount + 1,
                            regOutcome := some b }
  | reg_close_started (s : SysState) :
      s.fatal = false → s.regPC = .closingStarted →
      Step get n s { s with regPC := .done, startedCount := s.startedCount + 1 }

/-- The states one run of `server` can reach from `initState`. -/
inductive Reachable (get : Nat → GetResult) (n : Int) : SysState → Prop where
  | init : Reachable get n initState
  | step {s s' : SysState} :
      Reachable get n s → Step get n s s' → Reachable get n s'

/-- The inductive invariant of the orchestration: each channel's close
counter is 0 before and 1 after its closing goroutine's program counter
passes the `close`, the registration counter tracks the registration
goroutine's progress, each wait has really been passed (the replay
collaborator runs only after the probe closed `deployed`, the
registration goroutine only after the collaborator closed `replayed`),
`fatal` holds exactly in the probe-failure state, and the probe reaches
its success branch only when `pingServer` succeeds. -/
def SysInv (get : Nat → GetResult) (n : Int) (s : SysState) : Prop :=
  s.deployedCount = (if s.probePC = .done then 1 else 0) ∧
  s.replayedCount = (if s.replayPC = .done then 1 else 0) ∧
  s.startedCount = (if s.regPC = .done then 1 else 0) ∧
  s.regCount = (if s.regPC = .waiting ∨ s.regPC = .registering then 0 else 1) ∧
  (s.replayPC ≠ .waiting → s.probePC = .done) ∧
  (s.regPC ≠ .waiting → s.replayPC = .done) ∧
  (s.fatal = true ↔ s.probePC = .failed) ∧
  ((s.probePC = .succeeded ∨ s.probePC = .done) → pingSucceeds get n = true)

/-- A network behaviour whose every GET returns status 200. -/
def getAlwaysOk : Nat → GetResult := fun _ => .response 200

/-- A network behaviour whose every GET fails with a transport error. -/
def getAlwaysFail : Nat → GetResult := fun _ => .transportError

/-- State after the probe's `pingServer` call returned nil. -/
def sProbeOk : SysState := { initState with probePC := .succeeded }

/-- State after the probe goroutine executed `close(deployed)`. -/
def sDeployed : SysState :=
  { sProbeOk with probePC := .done, deployedCount := 1 }

/-- State after the replay collaborator passed its wait on `deployed`. -/
def sReplayClosing : SysState := { sDeployed with replayPC := .closing }

/-- State after the replay collaborator executed `close(replayed)`. -/
def sReplayed : SysState :=
  { sReplayClosing with replayPC := .done, replayedCount := 1 }

/-- State after the registration goroutine passed `<-replayed`. -/
def sRegistering : SysState := { sReplayed with regPC := .registering }

/-- State after `sd.Register(c)` returned (with a success outcome). -/
def sRegistered : SysState :=
  { sRegistering with regPC := .closingStarted, regCount := 1,
                      regOutcome := some true }

/-- State after the registration goroutine executed `close(started)`. -/
def sStarted : SysState :=
  { sRegistered with regPC := .done, startedCount := 1 }

/-- State after `pingServer` exhausted its budget and `logrus.Fatalln`
terminated the process. -/
def sFatal : SysState := { initState with probePC := .failed, fatal := true }

/- Basic lemmas about the probe loop. -/

/-- Against a target whose every attempt fails, the loop uses its whole
budget: `remaining` attempts and `remaining` sleeps, then exhaustion. -/
theorem pingLoop_allFail (get : Nat → GetResult)
    (hf : ∀ j, pingOk (get j) = false) :
    ∀ remaining i, pingLoop get i remaining = .exhausted remaining remaining := by
  intro remaining
  induction remaining with
  | zero => intro i; rfl
  | succ r ih =>
    intro i
    simp only [pingLoop, hf i, Bool.false_eq_true, if_false, ih (i + 1)]

/-- If the first success is at offset `j` from the start index `i`
(0-indexed) and the budget covers it, the loop returns success after
`j + 1` attempts and `j` sleeps. -/
theorem pingLoop_firstSuccess (get : Nat → GetResult) :
    ∀ (j remaining i : Nat), j < remaining →
    pingOk (get (i + j)) = true →
    (∀ m, m < j → pingOk (get (i + m)) = false) →
    pingLoop get i remaining = .ok (j + 1) j := by
  intro j
  induction j with
  | zero =>
    intro remaining i hlt hok _
    match remaining, hlt with
    | r + 1, _ =>
      simp only [Nat.add_zero] at hok
      simp only [pingLoop, hok, if_true]
  | succ j ih =>
    intro remaining i hlt hok hprev
    match remaining, hlt with
    | r + 1, hlt =>
      have h0 : pingOk (get i) = false := by
        have := hprev 0 (Nat.succ_pos j)
        simpa using this
      have hok' : pingOk (get (i + 1 + j)) = true := by
        have : i + 1 + j = i + (j + 1) := by omega
        rw [this]; exact hok
      have hprev' : ∀ m, m < j → pingOk (get (i + 1 + m)) = false := by
        intro m hm
        have : i + 1 + m = i + (m + 1) := by omega
        rw [this]
        exact hprev (m + 1) (by omega)
      have hr : j < r := by omega
      simp only [pingLoop, h0, Bool.false_eq_true, if_false,
        ih r (i + 1) hr hok' hprev']

/-- Pointwise equal success tests give identical loop behaviour: the loop
inspects an attempt only through the `err == nil && status == 200` test. -/
theorem pingLoop_congr (get₁ get₂ : Nat → GetResult)
    (h : ∀ i, pingOk (get₁ i) = pingOk (get₂ i)) :
    ∀ remaining i, pingLoop get₁ i remaining = pingLoop get₂ i remaining := by
  intro remaining
  induction remaining with
  | zero => intro i; rfl
  | succ r ih =>
    intro i
    simp only [pingLoop, h i, ih (i + 1)]

/-- Every reachable state of one `server` run satisfies the invariant. -/
theorem inv_reachable (get : Nat → GetResult) (n : Int) :
    ∀ s, Reachable get n s → SysInv get n s := by
  intro s h
  induction h with
  | init => simp [SysInv, initState]
  | @step t s hr hstep ih =>
    obtain ⟨h1, h2, h3, h4, h5, h6, h7, h8⟩ := ih
    cases hstep with
    | probe_ok hf hpc hping =>
      refine ⟨?_, ?_, ?_, ?_, ?_, ?_, ?_, ?_⟩ <;> simp_all
    | probe_fail hf hpc hping =>
      refine ⟨?_, ?_, ?_, ?_, ?_, ?_, ?_, ?_⟩ <;> simp_all
    | probe_close_deployed hf hpc =>
      refine ⟨?_, ?_, ?_, ?_, ?_, ?_, ?_, ?_⟩ <;> simp_all
    | replay_wait_deployed hf hpc hdep =>
      have hpd : t.probePC = .done := by
        by_contra hnd
        rw [if_neg hnd] at h1
        exact hdep h1
      refine ⟨?_, ?_, ?_, ?_, ?_, ?_, ?_, ?_⟩ <;> simp_all
    | replay_close_replayed hf hpc =>
      refine ⟨?_, ?_, ?_, ?_, ?_, ?_, ?_, ?_⟩ <;> simp_all
    | reg_wait_replayed hf hpc hrep =>
      have hrd : t.replayPC = .done := by
        by_contra hnd
        rw [if_neg hnd] at h2
        exact hrep h2
      refine ⟨?_, ?_, ?_, ?_, ?_, ?_, ?_, ?_⟩ <;> simp_all
    | reg_call b hf hpc =>
      refine ⟨?_, ?_, ?_, ?_, ?_, ?_, ?_, ?_⟩ <;> simp_all
    | reg_close_started hf hpc =>
      refine ⟨?_, ?_, ?_, ?_, ?_, ?_, ?_, ?_⟩ <;> simp_all

/-- A full successful bootstrap run is an execution of the model. -/
theorem reach_sStarted : Reachable getAlwaysOk 20 sStarted :=
  Reachable.step
    (Reachable.step
      (Reachable.step
        (Reachable.step
          (Reachable.step
            (Reachable.step
              (Reachable.step Reachable.init
                (Step.probe_ok initState rfl rfl rfl))
              (Step.probe_close_deployed sProbeOk rfl rfl))
            (Step.replay_wait_deployed sDeployed rfl rfl (by decide)))
          (Step.replay_close_replayed sReplayClosing rfl rfl))
        (Step.reg_wait_replayed sReplayed rfl rfl (by decide)))
      (Step.reg_call sRegistering true rfl rfl))
    (Step.reg_close_started sRegistered rfl rfl)

/-- The state right after the registration call is reachable. -/
theorem reach_sRegistered : Reachable getAlwaysOk 20 sRegistered :=
  Reachable.step
    (Reachable.step
      (Reachable.step
        (Reachable.step
          (Reachable.step
            (Reachable.step Reachable.init
              (Step.probe_ok initState rfl rfl rfl))
            (Step.probe_close_deployed sProbeOk rfl rfl))
          (Step.replay_wait_deployed sDeployed rfl rfl (by decide)))
        (Step.replay_close_replayed sReplayClosing rfl rfl))
      (Step.reg_wait_replayed sReplayed rfl rfl (by decide)))
    (Step.reg_call sRegistering true rfl rfl)

/-- The fatal state is reachable when every probe attempt fails. -/
theorem reach_sFatal : Reachable getAlwaysFail 3 sFatal :=
  Reachable.step Reachable.init (Step.probe_fail initState rfl rfl rfl)

/-- Claim C1: the `sd.Register` call (and hence the closing of `started`)
happens only after both preconditions hold — in every reachable state in
which registration has occurred, `deployed` and `replayed` have each been
closed; registration never happens while the routes-deployed precondition
is outstanding. -/
theorem claim_C1_registration_after_both_preconditions
    (get : Nat → GetResult) (n : Int) (s : SysState)
    (h : Reachable get n s) (hreg : 1 ≤ s.regCount) :
    s.deployedCount = 1 ∧ s.replayedCount = 1 := by
  obtain ⟨h1, h2, h3, h4, h5, h6, h7, h8⟩ := inv_reachable get n s h
  by_cases hw : s.regPC = .waiting ∨ s.regPC = .registering
  · rw [if_pos hw] at h4
    omega
  · have hrd : s.replayPC = .done := h6 fun hq => hw (Or.inl hq)
    have hpd : s.probePC = .done := h5 (by rw [hrd]; decide)
    exact ⟨by rw [h1, if_pos hpd], by rw [h2, if_pos hrd]⟩

/-- Witness for C1: in the concrete successful run, the state just after
the registration call has both channels closed. -/
theorem claim_C1_witness :
    (Reachable getAlwaysOk 20 sRegistered ∧ 1 ≤ sRegistered.regCount) ∧
    (sRegistered.deployedCount = 1 ∧ sRegistered.replayedCount = 1) :=
  ⟨⟨reach_sRegistered, by decide⟩,
    claim_C1_registration_after_both_preconditions getAlwaysOk 20 sRegistered
      reach_sRegistered (by decide)⟩

/-- Claim C2: against a target failing every attempt, a budget `n ≥ 1`
yields exactly `n` GET attempts followed by the exhaustion error, and a
budget `n ≤ 0` yields zero attempts and the immediate exhaustion error. -/
theorem claim_C2_exhaustion_attempt_count
    (get : Nat → GetResult) (n : Int)
    (hf : ∀ i, pingOk (get i) = false) :
    (1 ≤ n →
      pingServer get n = .exhausted n.toNat n.toNat ∧ (n.toNat : Int) = n) ∧
    (n ≤ 0 → pingServer get n = .exhausted 0 0) := by
  constructor
  · intro hn
    refine ⟨pingLoop_allFail get hf n.toNat 0, ?_⟩
    omega
  · intro hn
    have h0 : n.toNat = 0 := by omega
    rw [pingServer, h0]
    rfl

/-- Witness for C2: an always-transport-error target with budget 3 makes
exactly 3 attempts then exhausts; with budget -2 it makes none. -/
theorem claim_C2_witness :
    (∀ i : Nat, pingOk (getAlwaysFail i) = false) ∧
    pingServer getAlwaysFail 3 = .exhausted 3 3 ∧
    pingServer getAlwaysFail (-2) = .exhausted 0 0 :=
  ⟨fun _ => rfl,
    ((claim_C2_exhaustion_attempt_count getAlwaysFail 3 fun _ => rfl).1
      (by decide)).1,
    (claim_C2_exhaustion_attempt_count getAlwaysFail (-2) fun _ => rfl).2
      (by decide)⟩

/-- Claim C3: if the first success comes on attempt `k = j + 1` and the
budget `n` covers it (`k ≤ n`), the probe makes exactly `k` attempts,
returns success, and performs no request and no sleep after the
successful attempt (`j` sleeps, all before it). -/
theorem claim_C3_success_attempt_count
    (get : Nat → GetResult) (n : Int) (j : Nat)
    (hok : pingOk (get j) = true)
    (hprev : ∀ m, m < j → pingOk (get m) = false)
    (hle : (j : Int) < n) :
    pingServer get n = .ok (j + 1) j := by
  have hj : j < n.toNat := by omega
  have hok' : pingOk (get (0 + j)) = true := by rw [Nat.zero_add]; exact hok
  have hprev' : ∀ m, m < j → pingOk (get (0 + m)) = false := by
    intro m hm
    rw [Nat.zero_add]
    exact hprev m hm
  exact pingLoop_firstSuccess get j n.toNat 0 hj hok' hprev'

/-- Witness for C3 (the spec's scenario A): attempts 1-2 return 503, the
third returns 200, budget 5 — the probe succeeds after exactly 3 attempts
and 2 sleeps. -/
theorem claim_C3_witness :
    (pingOk ((fun i => if i < 2 then GetResult.response 503
        else GetResult.response 200) 2) = true ∧
      (2 : Int) < 5) ∧
    pingServer (fun i => if i < 2 then GetResult.response 503
      else GetResult.response 200) 5 = .ok 3 2 :=
  ⟨⟨by decide, by decide⟩,
    claim_C3_success_attempt_count
      (fun i => if i < 2 then GetResult.response 503 else GetResult.response 200)
      5 2 (by decide)
      (fun m hm => by
        match m, hm with
        | 0, _ => rfl
        | 1, _ => rfl)
      (by decide)⟩

/-- Counterexample to claim C4 as stated: with budget 5 and a target that
always fails (the spec's scenario B), the probe performs 5 sleeps — one
after every failed attempt including the last — not `5 - 1 = 4`. -/
theorem claim_C4_counterexample :
    (∀ i : Nat, pingOk (getAlwaysFail i) = false) ∧
    (pingServer getAlwaysFail 5).sleepCount = 5 ∧
    (pingServer getAlwaysFail 5).sleepCount ≠ 5 - 1 :=
  ⟨fun _ => rfl, by decide, by decide⟩

/-- Claim C4 as amended: against an always-failing target with budget
`n ≥ 1`, the probe sleeps once after every failed attempt, the last
included: exactly `n` sleeps (one per attempt), so about `n × interval`
elapses before exhaustion. -/
theorem claim_C4_amended_sleep_count
    (get : Nat → GetResult) (n : Int)
    (hf : ∀ i, pingOk (get i) = false) (hn : 1 ≤ n) :
    (pingServer get n).sleepCount = (pingServer get n).attemptCount ∧
    (pingServer get n).sleepCount = n.toNat := by
  rw [pingServer, pingLoop_allFail get hf n.toNat 0]
  exact ⟨rfl, rfl⟩

/-- Witness for the amended C4: budget 5, always-failing target — 5
attempts and 5 sleeps. -/
theorem claim_C4_amended_witness :
    ((∀ i : Nat, pingOk (getAlwaysFail i) = false) ∧ (1 : Int) ≤ 5) ∧
    ((pingServer getAlwaysFail 5).sleepCount
        = (pingServer getAlwaysFail 5).attemptCount ∧
      (pingServer getAlwaysFail 5).sleepCount = (5 : Int).toNat) :=
  ⟨⟨fun _ => rfl, by decide⟩,
    claim_C4_amended_sleep_count getAlwaysFail 5 (fun _ => rfl) (by decide)⟩

/-- Claim C5: an attempt succeeds iff the GET completed without transport
error with status exactly 200; and the probe's behaviour depends on an
attempt only through that test, so non-200 statuses (e.g. 503) are
treated identically to transport errors — same attempt counts, same
outcome. -/
theorem claim_C5_success_criterion :
    (∀ g : GetResult, pingOk g = true ↔ g = .response 200) ∧
    (∀ get₁ get₂ : Nat → GetResult,
      (∀ i, pingOk (get₁ i) = pingOk (get₂ i)) →
      ∀ n : Int, pingServer get₁ n = pingServer get₂ n) := by
  constructor
  · intro g
    cases g with
    | transportError => simp [pingOk]
    | response statusCode => simp [pingOk]
  · intro get₁ get₂ hpt n
    rw [pingServer, pingServer]
    exact pingLoop_congr get₁ get₂ hpt n.toNat 0

/-- Witness for C5: a target always answering 503 and a target always
failing at transport level produce identical probe runs (budget 3), and
the success test holds at `response 200`. -/
theorem claim_C5_witness :
    ((∀ i : Nat, pingOk ((fun _ => GetResult.response 503) i)
        = pingOk (getAlwaysFail i)) ∧
      pingOk (.response 200) = true) ∧
    pingServer (fun _ => GetResult.response 503) 3
      = pingServer getAlwaysFail 3 :=
  ⟨⟨fun _ => rfl, by decide⟩,
    claim_C5_success_criterion.2 (fun _ => GetResult.response 503)
      getAlwaysFail (fun _ => rfl) 3⟩

/-- Claim C6: once the probe has exhausted its budget the process is
terminated by `logrus.Fatalln`: in every reachable fatal state no
registration has been made, `started` was never closed, and no further
step of any goroutine is possible — there is no recoverable error value
or restart path. -/
theorem claim_C6_exhaustion_is_fatal
    (get : Nat → GetResult) (n : Int) (s : SysState)
    (h : Reachable get n s) (hfatal : s.fatal = true) :
    s.regCount = 0 ∧ s.startedCount = 0 ∧ ∀ s', ¬ Step get n s s' := by
  obtain ⟨h1, h2, h3, h4, h5, h6, h7, h8⟩ := inv_reachable get n s h
  have hpf : s.probePC = .failed := h7.mp hfatal
  have hrw : s.replayPC = .waiting := by
    by_contra hq
    have hd := h5 hq
    rw [hpf] at hd
    cases hd
  have hgw : s.regPC = .waiting := by
    by_contra hq
    have hd := h6 hq
    rw [hrw] at hd
    cases hd
  refine ⟨?_, ?_, ?_⟩
  · rw [h4, if_pos (Or.inl hgw)]
  · rw [h3, if_neg (by rw [hgw]; decide)]
  · intro s' hstep
    cases hstep <;> simp_all

/-- Witness for C6: with an always-failing target and budget 3, the fatal
state is reached; it has no registration, no `started` close, and no
successor. -/
theorem claim_C6_witness :
    (Reachable getAlwaysFail 3 sFatal ∧ sFatal.fatal = true) ∧
    (sFatal.regCount = 0 ∧ sFatal.startedCount = 0 ∧
      ∀ s', ¬ Step getAlwaysFail 3 sFatal s') :=
  ⟨⟨reach_sFatal, rfl⟩,
    claim_C6_exhaustion_is_fatal getAlwaysFail 3 sFatal reach_sFatal rfl⟩

/-- Claim C7: per run, `sd.Register` is called at most once and `started`
is closed at most once; whenever `started` has been closed the
registration call has been made (close after register); and from any
state where the registration call has just returned, the `close(started)`
step is enabled with no condition on the call's recorded outcome —
registration failure is not reported and does not prevent the close. -/
theorem claim_C7_register_once_started_once
    (get : Nat → GetResult) (n : Int) (s : SysState)
    (h : Reachable get n s) :
    s.regCount ≤ 1 ∧ s.startedCount ≤ 1 ∧
    (1 ≤ s.startedCount → s.regCount = 1) ∧
    (s.regPC = .closingStarted →
      Step get n s
        { s with regPC := .done, startedCount := s.startedCount + 1 }) := by
  obtain ⟨h1, h2, h3, h4, h5, h6, h7, h8⟩ := inv_reachable get n s h
  refine ⟨?_, ?_, ?_, ?_⟩
  · rw [h4]
    split <;> omega
  · rw [h3]
    split <;> omega
  · intro hs
    by_cases hd : s.regPC = .done
    · rw [h4, if_neg (by rw [hd]; decide)]
    · rw [h3, if_neg hd] at hs
      omega
  · intro hcs
    have hrd : s.replayPC = .done := h6 (by rw [hcs]; decide)
    have hpd : s.probePC = .done := h5 (by rw [hrd]; decide)
    have hff : s.fatal = false := by
      cases hfb : s.fatal
      · rfl
      · exact absurd (h7.mp hfb) (by rw [hpd]; decide)
    exact Step.reg_close_started s hff hcs

/-- Witness for C7: the theorem applied to the reachable state just after
the registration call of the concrete successful run. -/
theorem claim_C7_witness :
    Reachable getAlwaysOk 20 sStarted ∧
    (sStarted.regCount ≤ 1 ∧ sStarted.startedCount ≤ 1 ∧
      (1 ≤ sStarted.startedCount → sStarted.regCount = 1) ∧
      (sStarted.regPC = .closingStarted →
        Step getAlwaysOk 20 sStarted
          { sStarted with regPC := .done,
                          startedCount := sStarted.startedCount + 1 })) :=
  ⟨reach_sStarted,
    claim_C7_register_once_started_once getAlwaysOk 20 sStarted reach_sStarted⟩

/-- Claim C8: the probe targets the process's own routing stack — the GET
goes to the configured service URL plus `/sd/health`, and that exact path
is registered as a GET route (handler `sd.HealthCheck`) by `router.Load`
on the same engine the request acceptor serves. -/
theorem claim_C8_probe_self_targets_health_route :
    (∀ url, pingURL url = url ++ "/sd/health") ∧
    Route.mk "GET" "/sd/health" "sd.HealthCheck" ∈ servedRoutes ∧
    servedRoutes = Router.Load := by
  refine ⟨fun url => rfl, ?_, rfl⟩
  decide

/-- Claim C9: the probe's configuration constants — the attempt budget
flag `max-ping-count` defaults to 20 (`cli.IntFlag` value, server.go line
58) and the retry interval is the fixed 1 second of
`time.Sleep(time.Second)` (line 241); both are constants of the startup
configuration table, never mutated. -/
theorem claim_C9_probe_configuration_constants :
    flagIntValue "max-ping-count" = some 20 ∧
    pingRetryIntervalSeconds = 1 ∧
    (serverFlags.find? (fun f => f.name == "max-ping-count")).isSome = true := by
  refine ⟨?_, rfl, ?_⟩ <;> decide

/-- Claim C10: no channel is ever double-closed — in every reachable
state each of `deployed`, `replayed`, `started` has been closed at most
once; `deployed` is only ever closed by the probe goroutine's
post-success step, `replayed` only by the replay collaborator's closing
step, `started` only by the registration goroutine's closing step; and
`deployed` is closed only when `pingServer` succeeded. -/
theorem claim_C10_channels_closed_at_most_once
    (get : Nat → GetResult) (n : Int) (s : SysState)
    (h : Reachable get n s) :
    (s.deployedCount ≤ 1 ∧ s.replayedCount ≤ 1 ∧ s.startedCount ≤ 1) ∧
    (1 ≤ s.deployedCount → pingSucceeds get n = true) ∧
    ∀ s', Step get n s s' →
      (s'.deployedCount = s.deployedCount ∨
        (s.probePC = .succeeded ∧ s'.probePC = .done ∧
          s'.deployedCount = s.deployedCount + 1)) ∧
      (s'.replayedCount = s.replayedCount ∨
        (s.replayPC = .closing ∧ s'.replayPC = .done ∧
          s'.replayedCount = s.replayedCount + 1)) ∧
      (s'.startedCount = s.startedCount ∨
        (s.regPC = .closingStarted ∧ s'.regPC = .done ∧
          s'.startedCount = s.startedCount + 1)) := by
  obtain ⟨h1, h2, h3, h4, h5, h6, h7, h8⟩ := inv_reachable get n s h
  refine ⟨⟨?_, ?_, ?_⟩, ?_, ?_⟩
  · rw [h1]
    split <;> omega
  · rw [h2]
    split <;> omega
  · rw [h3]
    split <;> omega
  · intro hd
    by_cases hp : s.probePC = .done
    · exact h8 (Or.inr hp)
    · rw [h1, if_neg hp] at hd
      omega
  · intro s' hstep
    cases hstep <;> refine ⟨?_, ?_, ?_⟩ <;> simp_all

/-- Witness for C10: the theorem applied to the final state of the
concrete successful run, where each channel has been closed exactly
once. -/
theorem claim_C10_witness :
    Reachable getAlwaysOk 20 sStarted ∧
    (sStarted.deployedCount ≤ 1 ∧ sStarted.replayedCount ≤ 1 ∧
      sStarted.startedCount ≤ 1) ∧
    (1 ≤ sStarted.deployedCount → pingSucceeds getAlwaysOk 20 = true) :=
  ⟨reach_sStarted,
    (claim_C10_channels_closed_at_most_once getAlwaysOk 20 sStarted
      reach_sStarted).1,
    (claim_C10_channels_closed_at_most_once getAlwaysOk 20 sStarted
      reach_sStarted).2.1⟩
